import Mathlib

/-!
Shallow embedding of the shopping-list application (src/src/App.tsx).

The application state, actions and reducer are translated directly from
the TypeScript source.  JavaScript numbers occurring here (item
quantities, quantity changes) only ever hold small integers, so they are
modelled as `Int`; array indices dispatched by the UI are non-negative,
so they are modelled as `Nat`.  A JavaScript expression that throws
(property access on `undefined`, as in `draft[i].isSelected` for an
out-of-range `i`) is modelled by `Option`, with `none` for the throw.
-/

/-- The schema `noteSchema`, the `notes` field of a list item (App.tsx lines 16-19). -/
structure Note where
  isOpen : Bool
  text : String
deriving DecidableEq, Repr

/-- The schema `listItemSchema` and type `ListItem` (App.tsx lines 21-28). -/
structure ListItem where
  label : String
  isSelected : Bool
  notes : Note
  quantity : Int
deriving DecidableEq, Repr

/-- The schema `shoppingListStateSchema` and type `ShoppingListState` (App.tsx lines 32-38). -/
structure ShoppingListState where
  items : List ListItem
  resultsAreVisible : Bool
  searchInput : String
deriving DecidableEq, Repr

/-- The action type `ShoppingListAction` (App.tsx lines 40-63). -/
inductive ShoppingListAction where
  | ChangeItemQuantity (change : Int) (itemLabel : String)
  | DeletedItem (itemIndex : Nat)
  | SetItem (itemLabel : String)
  | SetSearchInput (searchInput : String)
  | ToggledItem (itemIndex : Nat)
  | ToggledNote (itemIndex : Nat)
  | UpdateNoteText (itemIndex : Nat) (text : String)
deriving DecidableEq, Repr

/-- The `ChangeItemQuantity` case body (App.tsx lines 67-80): `immer`'s
`produce` over `draft.map`, mutating the quantity of every draft item
whose label equals `action.itemLabel`. -/
def changeItemQuantity (items : List ListItem) (itemLabel : String) (change : Int) :
    List ListItem :=
  items.map fun item =>
    if item.label == itemLabel then { item with quantity := item.quantity + change }
    else item

/-- The reducer `shoppingListReducer` (App.tsx lines 65-137).

* `DeletedItem` uses `draft.splice(action.itemIndex, 1)`, which for an
  index at or past the end removes nothing; this is `List.eraseIdx`.
* `ToggledItem`, `ToggledNote` and `UpdateNoteText` read
  `draft[action.itemIndex]` and immediately access a property of it; for
  an out-of-range index that is a property access on `undefined`, a
  thrown `TypeError`, modelled as `none`. -/
def shoppingListReducer (state : ShoppingListState) (action : ShoppingListAction) :
    Option ShoppingListState :=
  match action with
  | .ChangeItemQuantity change itemLabel =>
      some { state with items := changeItemQuantity state.items itemLabel change }
  | .DeletedItem itemIndex =>
      some { state with items := state.items.eraseIdx itemIndex }
  | .SetItem itemLabel =>
      some { state with
        items :=
          { label := itemLabel, isSelected := false,
            notes := { isOpen := false, text := "" }, quantity := 1 } :: state.items,
        resultsAreVisible := false }
  | .SetSearchInput searchInput =>
      some { state with resultsAreVisible := true, searchInput := searchInput }
  | .ToggledItem itemIndex =>
      match state.items[itemIndex]? with
      | some item =>
          some { state with
            items := state.items.set itemIndex { item with isSelected := !item.isSelected } }
      | none => none
  | .ToggledNote itemIndex =>
      match state.items[itemIndex]? with
      | some item =>
          some { state with
            items := state.items.set itemIndex
              { item with notes := { item.notes with isOpen := !item.notes.isOpen } } }
      | none => none
  | .UpdateNoteText itemIndex text =>
      match state.items[itemIndex]? with
      | some item =>
          some { state with
            items := state.items.set itemIndex
              { item with notes := { item.notes with text := text } } }
      | none => none

/-- The constant `emptyState` (App.tsx lines 140-144). -/
def emptyState : ShoppingListState :=
  { items := [], searchInput := "", resultsAreVisible := false }

/-- The test `itemExistsInList` inside `handleSetListItem` (App.tsx line 168):
`R.any((item_) => item_.label == itemLabel)(state.items)`. -/
def itemExistsInList (items : List ListItem) (itemLabel : String) : Bool :=
  items.any fun item => item.label == itemLabel

/-- The dispatch decision of `handleSetListItem` (App.tsx lines 166-177):
which action the UI dispatches for a chosen label. -/
def handleSetListItem (state : ShoppingListState) (itemLabel : String) :
    ShoppingListAction :=
  if itemExistsInList state.items itemLabel then
    .ChangeItemQuantity 1 itemLabel
  else
    .SetItem itemLabel

/-- The remote food-search URL (App.tsx line 253). -/
def foodApiUrl (itemQuery : String) : String :=
  "https://api.frontendeval.com/fake/food/" ++ itemQuery

/-- The hook `useFoodQuery` (App.tsx lines 249-258): the query is issued only
when `enabled: itemQuery.length > 1`; `react-query` makes no request for
a disabled query, modelled as `none`. -/
def useFoodQuery (itemQuery : String) : Option String :=
  if itemQuery.length > 1 then some (foodApiUrl itemQuery) else none

/-- JSON values, for the persistence round trip.  All numbers the
application serializes are integers.  `JSON.parse ∘ JSON.stringify` is
the identity on such values, so persistence and rehydration are modelled
directly on `Json` values. -/
inductive Json where
  | null
  | bool (b : Bool)
  | num (n : Int)
  | str (s : String)
  | arr (xs : List Json)
  | obj (fields : List (String × Json))

/-- Field lookup in a JSON object; `none` on any other JSON value. -/
def Json.getField (j : Json) (key : String) : Option Json :=
  match j with
  | .obj fields => (fields.find? fun p => p.1 == key).map (·.2)
  | _ => none

/-- The validator `z.boolean()`. -/
def parseBool : Json → Option Bool
  | .bool b => some b
  | _ => none

/-- The validator `z.string()`. -/
def parseString : Json → Option String
  | .str s => some s
  | _ => none

/-- The validator `z.string().min(1)` (the `label` field, App.tsx line 22). -/
def parseLabel : Json → Option String
  | .str s => if 1 ≤ s.length then some s else none
  | _ => none

/-- The validator `z.number().min(1).positive()` (the `quantity` field, App.tsx line 25). -/
def parseQuantity : Json → Option Int
  | .num n => if 1 ≤ n ∧ 0 < n then some n else none
  | _ => none

/-- Validation by `noteSchema` (App.tsx lines 16-19). -/
def parseNote (j : Json) : Option Note := do
  let o ← parseBool (← j.getField "isOpen")
  let t ← parseString (← j.getField "text")
  pure { isOpen := o, text := t }

/-- Validation by `listItemSchema` (App.tsx lines 21-26). -/
def parseListItem (j : Json) : Option ListItem := do
  let l ← parseLabel (← j.getField "label")
  let s ← parseBool (← j.getField "isSelected")
  let n ← parseNote (← j.getField "notes")
  let q ← parseQuantity (← j.getField "quantity")
  pure { label := l, isSelected := s, notes := n, quantity := q }

/-- Validation by `z.array(listItemSchema)`: every element must validate. -/
def parseItems : List Json → Option (List ListItem)
  | [] => some []
  | j :: js => do
    let item ← parseListItem j
    let rest ← parseItems js
    pure (item :: rest)

/-- Validation by `shoppingListStateSchema.safeParse` (App.tsx lines 32-36, 151). -/
def safeParse (j : Json) : Option ShoppingListState := do
  let itemsJson ← j.getField "items"
  let items ← match itemsJson with
    | .arr xs => parseItems xs
    | _ => none
  let vis ← parseBool (← j.getField "resultsAreVisible")
  let query ← parseString (← j.getField "searchInput")
  pure { items := items, resultsAreVisible := vis, searchInput := query }

/-- Serialization of a note by `JSON.stringify`, as a JSON value. -/
def Note.toJson (n : Note) : Json :=
  .obj [("isOpen", .bool n.isOpen), ("text", .str n.text)]

/-- Serialization of a list item by `JSON.stringify`, as a JSON value. -/
def ListItem.toJson (item : ListItem) : Json :=
  .obj [("label", .str item.label), ("isSelected", .bool item.isSelected),
        ("notes", item.notes.toJson), ("quantity", .num item.quantity)]

/-- Serialization `JSON.stringify(state)` (App.tsx line 200, the persistence effect),
as a JSON value. -/
def ShoppingListState.toJson (s : ShoppingListState) : Json :=
  .obj [("items", .arr (s.items.map ListItem.toJson)),
        ("resultsAreVisible", .bool s.resultsAreVisible),
        ("searchInput", .str s.searchInput)]

/-- Rehydration on load (App.tsx lines 148-155): read the stored value
(`none` when nothing is stored under the key, in which case
`JSON.stringify(emptyState)` is parsed instead), schema-validate it, and
fall back to `emptyState` when validation fails. -/
def rehydrate (stored : Option Json) : ShoppingListState :=
  let savedStateString := stored.getD (ShoppingListState.toJson emptyState)
  match safeParse savedStateString with
  | some parsed => parsed
  | none => emptyState

/-- Schema validity of an in-memory state, as the claim phrases it:
every item has a non-empty label and quantity at least 1. -/
def ValidState (s : ShoppingListState) : Prop :=
  ∀ item ∈ s.items, item.label ≠ "" ∧ 1 ≤ item.quantity

instance : DecidablePred ValidState := fun s =>
  inferInstanceAs (Decidable (∀ item ∈ s.items, item.label ≠ "" ∧ 1 ≤ item.quantity))

/-- The reducer cases that write through `draft[action.itemIndex]`
require the index to be in range; every other case is total. -/
def actionInRange (state : ShoppingListState) (action : ShoppingListAction) : Prop :=
  match action with
  | .ToggledItem i | .ToggledNote i => i < state.items.length
  | .UpdateNoteText i _ => i < state.items.length
  | _ => True

/-- One UI-driven transition (App.tsx lines 161-197): the handlers only
dispatch `DeletedItem`/`ToggledItem`/`ToggledNote`/`UpdateNoteText` with
indices produced by rendering `state.items`, hence in range, and item
labels only go through `handleSetListItem`. -/
inductive UIStep : ShoppingListState → ShoppingListState → Prop where
  | setListItem {s t : ShoppingListState} (itemLabel : String) :
      shoppingListReducer s (handleSetListItem s itemLabel) = some t → UIStep s t
  | deleteItem {s t : ShoppingListState} (i : Nat) :
      i < s.items.length → shoppingListReducer s (.DeletedItem i) = some t → UIStep s t
  | toggleItem {s t : ShoppingListState} (i : Nat) :
      i < s.items.length → shoppingListReducer s (.ToggledItem i) = some t → UIStep s t
  | toggleNote {s t : ShoppingListState} (i : Nat) :
      i < s.items.length → shoppingListReducer s (.ToggledNote i) = some t → UIStep s t
  | updateNoteText {s t : ShoppingListState} (i : Nat) (txt : String) :
      i < s.items.length → shoppingListReducer s (.UpdateNoteText i txt) = some t → UIStep s t
  | setSearchInput {s t : ShoppingListState} (q : String) :
      shoppingListReducer s (.SetSearchInput q) = some t → UIStep s t

/-- States reachable from the empty state under the UI dispatch discipline. -/
inductive Reachable : ShoppingListState → Prop where
  | init : Reachable emptyState
  | step {s t : ShoppingListState} : Reachable s → UIStep s t → Reachable t

/-- Setting a position of a list to the value it already holds leaves
the list unchanged. -/
theorem set_of_getElem? {α : Type _} :
    ∀ (l : List α) (i : Nat) (a : α), l[i]? = some a → l.set i a = l
  | [], _, _, h => by simp at h
  | x :: l, 0, a, h => by
      simp at h
      simp [h]
  | x :: l, i + 1, a, h => by
      simp at h
      simp [set_of_getElem? l i a h]

/-- The `ToggledItem`, `ToggledNote` and `UpdateNoteText` cases succeed
exactly on in-range indices; every other case is total.  This theorem is
used to settle the reducer-totality claim. -/
theorem reducer_isSome_iff_actionInRange (s : ShoppingListState) (a : ShoppingListAction) :
    (shoppingListReducer s a).isSome = true ↔ actionInRange s a := by
  cases a with
  | ChangeItemQuantity change itemLabel => simp [shoppingListReducer, actionInRange]
  | DeletedItem i => simp [shoppingListReducer, actionInRange]
  | SetItem itemLabel => simp [shoppingListReducer, actionInRange]
  | SetSearchInput q => simp [shoppingListReducer, actionInRange]
  | ToggledItem i =>
      simp only [shoppingListReducer, actionInRange]
      cases hx : s.items[i]? with
      | none =>
          rw [List.getElem?_eq_none_iff] at hx
          simp only [Option.isSome_none, Bool.false_eq_true, false_iff]
          omega
      | some item => simpa using (List.getElem?_eq_some.mp hx).1
  | ToggledNote i =>
      simp only [shoppingListReducer, actionInRange]
      cases hx : s.items[i]? with
      | none =>
          rw [List.getElem?_eq_none_iff] at hx
          simp only [Option.isSome_none, Bool.false_eq_true, false_iff]
          omega
      | some item => simpa using (List.getElem?_eq_some.mp hx).1
  | UpdateNoteText i txt =>
      simp only [shoppingListReducer, actionInRange]
      cases hx : s.items[i]? with
      | none =>
          rw [List.getElem?_eq_none_iff] at hx
          simp only [Option.isSome_none, Bool.false_eq_true, false_iff]
          omega
      | some item => simpa using (List.getElem?_eq_some.mp hx).1

/-- A concrete item used to instantiate theorems with hypotheses. -/
def sampleItem : ListItem :=
  { label := "milk", isSelected := false,
    notes := { isOpen := false, text := "2 liters" }, quantity := 2 }

/-- A concrete state used to instantiate theorems with hypotheses. -/
def sampleState : ShoppingListState :=
  { items := [sampleItem], resultsAreVisible := true, searchInput := "mi" }

/-- C1 (counterexample): on the empty state, a `ToggledItem` action with
`itemIndex` 0 is out of range, and the reducer does not return a state:
`draft[0].isSelected` is a property access on `undefined` and throws. -/
theorem toggledItem_out_of_range_throws :
    shoppingListReducer emptyState (.ToggledItem 0) = none := rfl

/-- C1 (amended): the reducer returns a state for every
`ChangeItemQuantity`, `DeletedItem`, `SetItem` and `SetSearchInput`
action, and for `ToggledItem`, `ToggledNote` and `UpdateNoteText`
exactly when `itemIndex` is in range of `state.items`; for an
out-of-range `itemIndex` on those three actions it throws. -/
theorem reducer_total_iff_actionInRange (s : ShoppingListState) (a : ShoppingListAction) :
    (shoppingListReducer s a).isSome = true ↔ actionInRange s a :=
  reducer_isSome_iff_actionInRange s a

/-- C1 witness: instantiation of the amended totality theorem. -/
theorem reducer_total_iff_actionInRange_witness :
    (shoppingListReducer sampleState (.ToggledItem 0)).isSome = true ↔
      actionInRange sampleState (.ToggledItem 0) :=
  reducer_total_iff_actionInRange sampleState (.ToggledItem 0)

/-- C3: the remote food-search query is disabled (no request is made)
for every search input of length 0 or 1, and enabled, issuing the
request to the search API, for every input of length at least 2. -/
theorem useFoodQuery_enabled_iff (q : String) :
    (q.length ≤ 1 → useFoodQuery q = none) ∧
    (2 ≤ q.length → useFoodQuery q = some (foodApiUrl q)) := by
  constructor
  · intro h
    simp only [useFoodQuery]
    rw [if_neg (by omega)]
  · intro h
    simp only [useFoodQuery]
    rw [if_pos (by omega)]

/-- C3 witness: a length-1 input issues no request, a length-2 input does. -/
theorem useFoodQuery_enabled_iff_witness :
    useFoodQuery "a" = none ∧ useFoodQuery "ab" = some (foodApiUrl "ab") :=
  ⟨(useFoodQuery_enabled_iff "a").1 (by decide),
   (useFoodQuery_enabled_iff "ab").2 (by decide)⟩

/-- C7: the reducer is deterministic; two runs on equal input state and
equal action produce equal results, and the result depends on nothing
but the state and the action. -/
theorem shoppingListReducer_deterministic (s1 s2 : ShoppingListState)
    (a1 a2 : ShoppingListAction) (hs : s1 = s2) (ha : a1 = a2) :
    shoppingListReducer s1 a1 = shoppingListReducer s2 a2 := by
  rw [hs, ha]

/-- C7 witness: instantiation of determinism at a concrete state and action. -/
theorem shoppingListReducer_deterministic_witness :
    shoppingListReducer sampleState (.SetItem "apple") =
      shoppingListReducer sampleState (.SetItem "apple") :=
  shoppingListReducer_deterministic sampleState sampleState
    (.SetItem "apple") (.SetItem "apple") rfl rfl

/-- C9: deleting at an index at or past the end of the list is a no-op:
`splice(itemIndex, 1)` removes nothing and the state is returned unchanged. -/
theorem deletedItem_out_of_range_noop (s : ShoppingListState) (i : Nat)
    (h : s.items.length ≤ i) :
    shoppingListReducer s (.DeletedItem i) = some s := by
  simp [shoppingListReducer, List.eraseIdx_eq_self.mpr h]

/-- C9 witness: deleting index 5 of a one-item list returns the state unchanged. -/
theorem deletedItem_out_of_range_noop_witness :
    shoppingListReducer sampleState (.DeletedItem 5) = some sampleState :=
  deletedItem_out_of_range_noop sampleState 5 (by decide)

/-- C5: toggling an in-range item negates its `isSelected` flag and
leaves its other fields, all other items, `searchInput` and
`resultsAreVisible` unchanged. -/
theorem toggledItem_frame (s : ShoppingListState) (i : Nat) (h : i < s.items.length) :
    ∃ t, shoppingListReducer s (.ToggledItem i) = some t ∧
      t.searchInput = s.searchInput ∧
      t.resultsAreVisible = s.resultsAreVisible ∧
      (∀ j, j ≠ i → t.items[j]? = s.items[j]?) ∧
      ∃ item, s.items[i]? = some item ∧
        t.items[i]? = some { item with isSelected := !item.isSelected } := by
  have hi : s.items[i]? = some s.items[i] := List.getElem?_eq_getElem h
  refine ⟨{ s with items := s.items.set i { s.items[i] with isSelected := !(s.items[i]).isSelected } }, ?_, rfl, rfl, ?_, s.items[i], hi, ?_⟩
  · simp [shoppingListReducer, hi]
  · intro j hj
    exact List.getElem?_set_ne (Ne.symm hj)
  · exact List.getElem?_set_self (by simpa using h)

/-- C5 witness: instantiation of the toggle frame property on a
one-item state. -/
theorem toggledItem_frame_witness :
    ∃ t, shoppingListReducer sampleState (.ToggledItem 0) = some t ∧
      t.searchInput = sampleState.searchInput ∧
      t.resultsAreVisible = sampleState.resultsAreVisible ∧
      (∀ j, j ≠ 0 → t.items[j]? = sampleState.items[j]?) ∧
      ∃ item, sampleState.items[0]? = some item ∧
        t.items[0]? = some { item with isSelected := !item.isSelected } :=
  toggledItem_frame sampleState 0 (by decide)

/-- Toggling the same position twice restores the original list. -/
theorem toggle_toggle (items : List ListItem) (i : Nat) (item : ListItem)
    (hi : items[i]? = some item) :
    (items.set i { item with isSelected := !item.isSelected }).set i
      { { item with isSelected := !item.isSelected } with
          isSelected := !({ item with isSelected := !item.isSelected }).isSelected }
      = items := by
  cases item
  simp only [List.set_set, Bool.not_not]
  exact set_of_getElem? items i _ hi

/-- C10: applying `ToggledItem` twice at the same in-range index
returns the original state. -/
theorem toggledItem_involution (s : ShoppingListState) (i : Nat)
    (h : i < s.items.length) :
    (shoppingListReducer s (.ToggledItem i)).bind
      (fun t => shoppingListReducer t (.ToggledItem i)) = some s := by
  have hi : s.items[i]? = some s.items[i] := List.getElem?_eq_getElem h
  have h2 : (s.items.set i { s.items[i] with isSelected := !(s.items[i]).isSelected })[i]?
      = some { s.items[i] with isSelected := !(s.items[i]).isSelected } :=
    List.getElem?_set_self (by simpa using h)
  have h3 := toggle_toggle s.items i s.items[i] hi
  simp only [shoppingListReducer, hi, Option.some_bind, h2, h3]

/-- C10 witness: toggling item 0 of a one-item state twice returns the
original state. -/
theorem toggledItem_involution_witness :
    (shoppingListReducer sampleState (.ToggledItem 0)).bind
      (fun t => shoppingListReducer t (.ToggledItem 0)) = some sampleState :=
  toggledItem_involution sampleState 0 (by decide)

/-- The membership test dispatched on by `handleSetListItem` holds
exactly when the label occurs among the item labels. -/
theorem itemExistsInList_iff (items : List ListItem) (l : String) :
    itemExistsInList items l = true ↔ l ∈ items.map fun item => item.label := by
  simp [itemExistsInList, List.any_eq_true, List.mem_map]

/-- C4: `ChangeItemQuantity` adds `change` to the quantity of every
item whose label equals the given label, leaves every other item and
`searchInput` / `resultsAreVisible` unchanged, and the UI dispatches it
with change +1 precisely when the chosen label already occurs in the
list. -/
theorem changeItemQuantity_spec (s : ShoppingListState) (change : Int) (itemLabel : String) :
    (∃ t, shoppingListReducer s (.ChangeItemQuantity change itemLabel) = some t ∧
      t.searchInput = s.searchInput ∧
      t.resultsAreVisible = s.resultsAreVisible ∧
      t.items.length = s.items.length ∧
      (∀ (j : Nat) (item : ListItem), s.items[j]? = some item →
        (item.label = itemLabel →
          t.items[j]? = some { item with quantity := item.quantity + change }) ∧
        (item.label ≠ itemLabel → t.items[j]? = some item))) ∧
    (handleSetListItem s itemLabel = .ChangeItemQuantity 1 itemLabel ↔
      itemLabel ∈ s.items.map fun item => item.label) := by
  constructor
  · refine ⟨{ s with items := changeItemQuantity s.items itemLabel change }, rfl, rfl, rfl, by simp [changeItemQuantity], ?_⟩
    intro j item hj
    constructor
    · intro hl
      simp [changeItemQuantity, hj, hl]
    · intro hl
      simp [changeItemQuantity, hj, hl]
  · rw [← itemExistsInList_iff s.items itemLabel]
    unfold handleSetListItem
    by_cases hex : itemExistsInList s.items itemLabel
    · simp [hex]
    · simp [hex]

/-- C4 witness: on a state owning a "milk" item the UI dispatches a +1
quantity change for "milk". -/
theorem changeItemQuantity_spec_witness :
    handleSetListItem sampleState "milk" = .ChangeItemQuantity 1 "milk" :=
  (changeItemQuantity_spec sampleState 1 "milk").2.mpr (by decide)

/-- A non-empty string has length at least 1. -/
theorem one_le_length_of_ne_empty (s : String) (h : s ≠ "") : 1 ≤ s.length := by
  cases s with
  | mk data =>
      cases data with
      | nil => exact absurd rfl h
      | cons c cs =>
          simp [String.length]

/-- Round trip for a single list item through the item schema. -/
theorem parseListItem_toJson (item : ListItem) (hl : 1 ≤ item.label.length)
    (hq : 1 ≤ item.quantity) :
    parseListItem (ListItem.toJson item) = some item := by
  obtain ⟨lab, sel, nts, qty⟩ := item
  obtain ⟨o, t⟩ := nts
  replace hl : 1 ≤ lab.length := hl
  replace hq : (1 : Int) ≤ qty := hq
  have hq2 : (0 : Int) < qty := by omega
  simp +decide [parseListItem, ListItem.toJson, Json.getField, List.find?,
    parseLabel, parseBool, parseQuantity, parseNote, Note.toJson, parseString, hl, hq, hq2]

/-- Round trip for the item array through the array schema. -/
theorem parseItems_toJson (items : List ListItem)
    (h : ∀ item ∈ items, item.label ≠ "" ∧ 1 ≤ item.quantity) :
    parseItems (items.map ListItem.toJson) = some items := by
  induction items with
  | nil => rfl
  | cons x xs ih =>
      have hx := h x (by simp)
      have hxs := fun item hm => h item (List.mem_cons_of_mem x hm)
      simp [parseItems,
        parseListItem_toJson x (one_le_length_of_ne_empty x.label hx.1) hx.2, ih hxs]

/-- Round trip for a whole schema-valid state through the state schema. -/
theorem safeParse_toJson (s : ShoppingListState) (h : ValidState s) :
    safeParse (ShoppingListState.toJson s) = some s := by
  obtain ⟨items, vis, query⟩ := s
  have hitems : ∀ item ∈ items, item.label ≠ "" ∧ 1 ≤ item.quantity :=
    fun item hm => h item hm
  simp +decide [safeParse, ShoppingListState.toJson, Json.getField, List.find?,
    parseBool, parseString, parseItems_toJson items hitems]

/-- C2: for every stored value for which schema validation fails,
including the case where nothing is stored under the key, the initial
state on load equals the empty state. -/
theorem rehydrate_fallback (stored : Option Json)
    (h : ∀ j, stored = some j → safeParse j = none) :
    rehydrate stored = emptyState := by
  cases stored with
  | none =>
      have hp : safeParse (ShoppingListState.toJson emptyState) = some emptyState := rfl
      simp [rehydrate, hp]
  | some j =>
      have hj := h j rfl
      simp [rehydrate, hj]

/-- C2 witness: nothing stored, and a stored value failing validation,
both rehydrate to the empty state. -/
theorem rehydrate_fallback_witness :
    rehydrate none = emptyState ∧ rehydrate (some .null) = emptyState :=
  ⟨rehydrate_fallback none (fun j h => nomatch h),
   rehydrate_fallback (some .null) (fun j h => by cases h; rfl)⟩

/-- C6: persisting a schema-valid state (every item with non-empty
label and quantity at least 1) and rehydrating it succeeds and yields a
state equal to the original. -/
theorem persist_rehydrate_roundtrip (s : ShoppingListState) (h : ValidState s) :
    safeParse (ShoppingListState.toJson s) = some s ∧
    rehydrate (some (ShoppingListState.toJson s)) = s := by
  have hp := safeParse_toJson s h
  exact ⟨hp, by simp [rehydrate, hp]⟩

/-- C6 witness: the round trip on a concrete valid one-item state. -/
theorem persist_rehydrate_roundtrip_witness :
    safeParse (ShoppingListState.toJson sampleState) = some sampleState ∧
    rehydrate (some (ShoppingListState.toJson sampleState)) = sampleState :=
  persist_rehydrate_roundtrip sampleState (by decide)

/-- A quantity change never alters item labels. -/
theorem changeItemQuantity_labels (items : List ListItem) (l : String) (c : Int) :
    (changeItemQuantity items l c).map (fun item => item.label) =
      items.map fun item => item.label := by
  simp only [changeItemQuantity, List.map_map]
  apply List.map_congr_left
  intro a ha
  by_cases hx : a.label == l
  · simp [Function.comp, hx]
  · simp [Function.comp, hx]

/-- Replacing an item by one with the same label leaves the label list
unchanged. -/
theorem labels_set (items : List ListItem) (i : Nat) (item item2 : ListItem)
    (hi : items[i]? = some item) (hl : item2.label = item.label) :
    ((items.set i item2).map fun x => x.label) = items.map fun x => x.label := by
  rw [List.map_set, hl]
  exact set_of_getElem? _ i _ (by simp [hi])

/-- Every UI-driven transition preserves distinctness of item labels. -/
theorem uiStep_labels_nodup {s t : ShoppingListState} (hstep : UIStep s t)
    (hs : (s.items.map fun item => item.label).Nodup) :
    (t.items.map fun item => item.label).Nodup := by
  cases hstep with
  | setListItem itemLabel hred =>
      by_cases hex : itemExistsInList s.items itemLabel
      · rw [handleSetListItem, if_pos hex] at hred
        simp only [shoppingListReducer, Option.some.injEq] at hred
        subst hred
        simpa [changeItemQuantity_labels] using hs
      · rw [handleSetListItem, if_neg hex] at hred
        simp only [shoppingListReducer, Option.some.injEq] at hred
        subst hred
        simp only [List.map_cons]
        rw [List.nodup_cons]
        refine ⟨?_, hs⟩
        intro hmem
        exact hex ((itemExistsInList_iff s.items itemLabel).mpr hmem)
  | deleteItem i hi hred =>
      simp only [shoppingListReducer, Option.some.injEq] at hred
      subst hred
      exact hs.sublist ((List.eraseIdx_sublist s.items i).map fun item => item.label)
  | toggleItem i hi hred =>
      have hgi : s.items[i]? = some s.items[i] := List.getElem?_eq_getElem hi
      simp only [shoppingListReducer, hgi, Option.some.injEq] at hred
      subst hred
      show ((s.items.set i { s.items[i] with isSelected := !(s.items[i]).isSelected }).map fun item => item.label).Nodup
      rw [labels_set s.items i s.items[i] { s.items[i] with isSelected := !(s.items[i]).isSelected } hgi rfl]
      exact hs
  | toggleNote i hi hred =>
      have hgi : s.items[i]? = some s.items[i] := List.getElem?_eq_getElem hi
      simp only [shoppingListReducer, hgi, Option.some.injEq] at hred
      subst hred
      show ((s.items.set i { s.items[i] with notes := { (s.items[i]).notes with isOpen := !(s.items[i]).notes.isOpen } }).map fun item => item.label).Nodup
      rw [labels_set s.items i s.items[i] { s.items[i] with notes := { (s.items[i]).notes with isOpen := !(s.items[i]).notes.isOpen } } hgi rfl]
      exact hs
  | updateNoteText i txt hi hred =>
      have hgi : s.items[i]? = some s.items[i] := List.getElem?_eq_getElem hi
      simp only [shoppingListReducer, hgi, Option.some.injEq] at hred
      subst hred
      show ((s.items.set i { s.items[i] with notes := { (s.items[i]).notes with text := txt } }).map fun item => item.label).Nodup
      rw [labels_set s.items i s.items[i] { s.items[i] with notes := { (s.items[i]).notes with text := txt } } hgi rfl]
      exact hs
  | setSearchInput q hred =>
      simp only [shoppingListReducer, Option.some.injEq] at hred
      subst hred
      exact hs

/-- C8: starting from the empty state and following the dispatch
discipline of the UI, the item labels in every reachable state are
pairwise distinct. -/
theorem reachable_labels_nodup (s : ShoppingListState) (h : Reachable s) :
    (s.items.map fun item => item.label).Nodup := by
  induction h with
  | init => simp [emptyState]
  | step hr hstep ih => exact uiStep_labels_nodup hstep ih

/-- C8 witness: instantiation at the initial reachable state. -/
theorem reachable_labels_nodup_witness :
    (emptyState.items.map fun item => item.label).Nodup :=
  reachable_labels_nodup emptyState Reachable.init
